import Mathlib

/-
Verification of the statistics module `src/composicao_estatisticas.py`
(descriptive statistics, two-sample F-test for variance equality, and the
control flow of the plotting routine with best-effort persistence).

Modelling conventions:
- A numeric sample is a `List ℚ` (exact arithmetic idealisation of the
  floating-point sample; the spec states its identities exactly).
- `numpy` reductions (`np.mean`, `np.var(ddof=1)`, `np.median`,
  `np.percentile` with linear interpolation) and `scipy.stats`
  (`mode`, `kurtosis(fisher=False)`) are transcribed from their documented
  formulas, which is what the source calls.
- `scipy.stats.f.cdf` (the cumulative distribution function of the
  F distribution) is kept abstract: `teste_f_variancias` is parametrised by
  a function `cdf : ℚ → ℕ → ℕ → ℝ`.  Facts that genuinely depend on the F
  distribution carry the corresponding property of its CDF as a hypothesis.
- Square roots land in `ℝ` via `Real.sqrt`.
- Plotting is modelled at the I/O-outcome level: an environment of failure
  flags and an outcome record (raised / displayed / file saved / error
  logged) transcribe the control flow of `composicao_histograma_boxplot`.
-/

namespace ComposicaoEstatisticas

/-- Arithmetic mean, as in `np.mean(amostra)`. -/
def mean (l : List ℚ) : ℚ := l.sum / l.length

/-- Sum of squared deviations from the mean. -/
def sumSqDev (l : List ℚ) : ℚ := (l.map (fun x => (x - mean l) ^ 2)).sum

/-- Unbiased sample variance, as in `np.var(amostra, ddof=1)`:
sum of squared deviations divided by (n - 1). -/
def sampleVar (l : List ℚ) : ℚ := sumSqDev l / ((l.length - 1 : ℕ) : ℚ)

/-- k-th central moment with divisor n (population convention), the moment
used by `scipy.stats.skew` and `scipy.stats.kurtosis` with `bias=True`. -/
def centralMoment (l : List ℚ) (k : ℕ) : ℚ :=
  (l.map (fun x => (x - mean l) ^ k)).sum / l.length

/-- Moment (Pearson) kurtosis, as in `scipy.stats.kurtosis(amostra, fisher=False)`:
m4 / m2 ^ 2 with population central moments. -/
def scipyKurtosis (l : List ℚ) : ℚ := centralMoment l 4 / centralMoment l 2 ^ 2

/-- Fisher (excess) kurtosis, what `scipy.stats.kurtosis` returns by default
(`fisher=True`): m4 / m2 ^ 2 - 3. -/
def scipyKurtosisFisher (l : List ℚ) : ℚ := scipyKurtosis l - 3

/-- Ascending sort of a sample, as performed internally by `np.median`,
`np.percentile` and `np.unique`. -/
def sortQ (l : List ℚ) : List ℚ := l.insertionSort (· ≤ ·)

/-- Median as in `np.median`: middle element of the sorted sample for odd
length, average of the two middle elements for even length. -/
def npMedian (l : List ℚ) : ℚ :=
  let s := sortQ l
  let n := s.length
  if n % 2 = 1 then s.getD (n / 2) 0
  else (s.getD (n / 2 - 1) 0 + s.getD (n / 2) 0) / 2

/-- Percentile with linear interpolation between closest ranks, as in
`np.percentile(amostra, q)` (default interpolation): position
q * (n - 1) / 100 in the sorted sample, interpolating between the two
neighbouring order statistics. -/
def npPercentile (l : List ℚ) (q : ℚ) : ℚ :=
  let s := sortQ l
  let n := s.length
  let pos : ℚ := q * ((n : ℚ) - 1) / 100
  let i : ℕ := (⌊pos⌋).toNat
  let frac : ℚ := pos - (i : ℚ)
  let lo := s.getD i 0
  let hi := s.getD (i + 1) lo
  lo + frac * (hi - lo)

/-- Largest multiplicity of any element of the sample. -/
def maxCount (l : List ℚ) : ℕ := l.foldr (fun x acc => max (l.count x) acc) 0

/-- The mode array of `scipy.stats.mode(amostra, keepdims=True)`: scipy sorts
the distinct values (`np.unique`) and takes the first one attaining the
maximal count, so the array holds the smallest most-frequent value; it is
empty exactly for an empty input. -/
def scipyModeList (l : List ℚ) : List ℚ :=
  (sortQ l.dedup).filter (fun x => l.count x = maxCount l)

/-- Fourth standardized moment of the sample: the mean of the fourth powers
of the deviations from the mean divided by the population standard deviation
(the quantity the spec calls moment kurtosis, with no -3 shift). -/
noncomputable def fourthStandardizedMoment (l : List ℚ) : ℝ :=
  ((l.map (fun x : ℚ => (((x : ℝ) - ((mean l : ℚ) : ℝ)) /
      Real.sqrt ((centralMoment l 2 : ℚ) : ℝ)) ^ 4)).sum) / (l.length : ℝ)

/-- The record returned by `calcular_estatisticas` (dictionary keys of the
source, accents dropped: Média, Mediana, Moda, Variância, Desvio Padrão,
Assimetria, Curtose, 1º/2º/3º Quartil).  `moda = none` models the `np.nan`
branch taken when the mode array is empty. -/
structure Estatisticas where
  media : ℚ
  mediana : ℚ
  moda : Option ℚ
  variancia : ℚ
  desvioPadrao : ℝ
  assimetria : ℝ
  curtose : ℚ
  q1 : ℚ
  q2M : ℚ
  q3 : ℚ

/-- Transcription of `calcular_estatisticas(amostra)`. -/
noncomputable def calcular_estatisticas (amostra : List ℚ) : Estatisticas :=
  let modaResult := scipyModeList amostra
  { media := mean amostra
    mediana := npMedian amostra
    moda := modaResult.head?
    variancia := sampleVar amostra
    desvioPadrao := Real.sqrt ((sampleVar amostra : ℚ) : ℝ)
    assimetria := ((centralMoment amostra 3 : ℚ) : ℝ) /
      Real.sqrt ((centralMoment amostra 2 : ℚ) : ℝ) ^ 3
    curtose := scipyKurtosis amostra
    q1 := npPercentile amostra 25
    q2M := npPercentile amostra 50
    q3 := npPercentile amostra 75 }

/-- Result record of `teste_f_variancias`: the two sample variances, the
F statistic, the two degrees of freedom, and the two-tailed p-value that the
function returns. -/
structure FTestResult where
  var1 : ℚ
  var2 : ℚ
  F : ℚ
  df1 : ℕ
  df2 : ℕ
  p_two : ℝ

/-- Transcription of `teste_f_variancias(amostra1, amostra2)`, parametrised by
the CDF of the F distribution (`stats.f.cdf`).  The branch on `var1 > var2`
picks F = larger/smaller variance with the degrees of freedom ordered the
same way; then `p_one = 1 - cdf F df1 df2` and the returned value is
`2 * min p_one (1 - p_one)`. -/
def teste_f_variancias (cdf : ℚ → ℕ → ℕ → ℝ) (amostra1 amostra2 : List ℚ) :
    FTestResult :=
  let var1 := sampleVar amostra1
  let var2 := sampleVar amostra2
  if var2 < var1 then
    let F := var1 / var2
    let df1 := amostra1.length - 1
    let df2 := amostra2.length - 1
    let p_one := 1 - cdf F df1 df2
    ⟨var1, var2, F, df1, df2, 2 * min p_one (1 - p_one)⟩
  else
    let F := var2 / var1
    let df1 := amostra2.length - 1
    let df2 := amostra1.length - 1
    let p_one := 1 - cdf F df1 df2
    ⟨var1, var2, F, df1, df2, 2 * min p_one (1 - p_one)⟩

/-- Environment of `composicao_histograma_boxplot`: whether the `images`
directory already exists, and whether `os.makedirs` respectively
`plt.savefig` would fail with an exception. -/
structure PlotEnv where
  imagesDirExists : Bool
  mkdirFails : Bool
  savefigFails : Bool

/-- Observable outcome of `composicao_histograma_boxplot`: whether an
exception escaped, whether the figure was rendered and shown (`plt.show`),
whether the PNG file was written, and whether an error message was printed. -/
structure PlotOutcome where
  raised : Bool
  displayed : Bool
  fileSaved : Bool
  errorLogged : Bool

/-- Control flow of `composicao_histograma_boxplot(..., salvar)`: when saving
is requested and the directory is missing, a failing `os.makedirs` is caught,
logged, and the function returns early (before any figure is built); otherwise
the figure is built, a failing `plt.savefig` is caught and logged, and
`plt.show` runs. -/
def composicao_histograma_boxplot (env : PlotEnv) (salvar : Bool) : PlotOutcome :=
  if salvar && !env.imagesDirExists && env.mkdirFails then
    { raised := false, displayed := false, fileSaved := false, errorLogged := true }
  else if salvar then
    if env.savefigFails then
      { raised := false, displayed := true, fileSaved := false, errorLogged := true }
    else
      { raised := false, displayed := true, fileSaved := true, errorLogged := false }
  else
    { raised := false, displayed := true, fileSaved := false, errorLogged := false }

/-
State-threading embedding for the frame property.  Each library call the
source makes receives the sample and returns its value together with the
sample state after the call; the transcription records that none of the
called routines (`np.mean`, `np.median`, `scipy.stats.mode`, `np.var`,
`np.std`, `scipy.stats.skew`, `scipy.stats.kurtosis`, `np.percentile`,
`len`, `stats.f.cdf`) writes to its argument.
-/

/-- Call to `np.mean(s)`: returns the mean, leaves the sample unchanged. -/
def np_mean_call (s : List ℚ) : ℚ × List ℚ := (mean s, s)

/-- Call to `np.median(s)`. -/
def np_median_call (s : List ℚ) : ℚ × List ℚ := (npMedian s, s)

/-- Call to `scipy.stats.mode(s, keepdims=True)`. -/
def scipy_mode_call (s : List ℚ) : List ℚ × List ℚ := (scipyModeList s, s)

/-- Call to `np.var(s, ddof=1)`. -/
def np_var_call (s : List ℚ) : ℚ × List ℚ := (sampleVar s, s)

/-- Call to `np.std(s, ddof=1)`. -/
noncomputable def np_std_call (s : List ℚ) : ℝ × List ℚ :=
  (Real.sqrt ((sampleVar s : ℚ) : ℝ), s)

/-- Call to `scipy.stats.skew(s)`. -/
noncomputable def scipy_skew_call (s : List ℚ) : ℝ × List ℚ :=
  (((centralMoment s 3 : ℚ) : ℝ) / Real.sqrt ((centralMoment s 2 : ℚ) : ℝ) ^ 3, s)

/-- Call to `scipy.stats.kurtosis(s, fisher=False)`. -/
def scipy_kurtosis_call (s : List ℚ) : ℚ × List ℚ := (scipyKurtosis s, s)

/-- Call to `np.percentile(s, q)`. -/
def np_percentile_call (s : List ℚ) (q : ℚ) : ℚ × List ℚ := (npPercentile s q, s)

/-- Call to `len(s)`. -/
def len_call (s : List ℚ) : ℕ × List ℚ := (s.length, s)

/-- State-threading transcription of `calcular_estatisticas`: the sample is
passed through every library call in source order and the final sample state
is returned next to the statistics record. -/
noncomputable def calcular_estatisticas_run (amostra : List ℚ) :
    Estatisticas × List ℚ :=
  let (modaResult, a1) := scipy_mode_call amostra
  let (me, a2) := np_mean_call a1
  let (md, a3) := np_median_call a2
  let (va, a4) := np_var_call a3
  let (sd, a5) := np_std_call a4
  let (sk, a6) := scipy_skew_call a5
  let (kt, a7) := scipy_kurtosis_call a6
  let (p25, a8) := np_percentile_call a7 25
  let (p50, a9) := np_percentile_call a8 50
  let (p75, a10) := np_percentile_call a9 75
  ({ media := me, mediana := md, moda := modaResult.head?, variancia := va,
     desvioPadrao := sd, assimetria := sk, curtose := kt,
     q1 := p25, q2M := p50, q3 := p75 }, a10)

/-- State-threading transcription of `teste_f_variancias`: both samples are
passed through the `np.var` and `len` calls and their final states are
returned next to the returned two-tailed p-value. -/
def teste_f_variancias_run (cdf : ℚ → ℕ → ℕ → ℝ) (amostra1 amostra2 : List ℚ) :
    ℝ × (List ℚ × List ℚ) :=
  let (var1, a1) := np_var_call amostra1
  let (var2, b1) := np_var_call amostra2
  let (n1, a2) := len_call a1
  let (n2, b2) := len_call b1
  let p :=
    if var2 < var1 then
      let F := var1 / var2
      let p_one := 1 - cdf F (n1 - 1) (n2 - 1)
      2 * min p_one (1 - p_one)
    else
      let F := var2 / var1
      let p_one := 1 - cdf F (n2 - 1) (n1 - 1)
      2 * min p_one (1 - p_one)
  (p, (a2, b2))

/-! Helper lemmas. -/

theorem sampleVar_nonneg (l : List ℚ) : 0 ≤ sampleVar l := by
  apply div_nonneg
  · apply List.sum_nonneg
    intro x hx
    obtain ⟨y, _, rfl⟩ := List.mem_map.mp hx
    positivity
  · exact_mod_cast Nat.zero_le _

theorem cast_sum_map (f : ℚ → ℚ) (t : List ℚ) :
    (((t.map f).sum : ℚ) : ℝ) = (t.map (fun x => ((f x : ℚ) : ℝ))).sum := by
  induction t with
  | nil => simp
  | cons a t ih => simp [ih]

theorem count_le_foldr (l t : List ℚ) (x : ℚ) (hx : x ∈ t) :
    l.count x ≤ t.foldr (fun y acc => max (l.count y) acc) 0 := by
  induction t with
  | nil => cases hx
  | cons a t ih =>
    rcases List.mem_cons.mp hx with rfl | hmem
    · exact le_max_left _ _
    · exact le_trans (ih hmem) (le_max_right _ _)

theorem maxCount_attained (l : List ℚ) : ∀ t : List ℚ, t ≠ [] →
    ∃ x ∈ t, l.count x = t.foldr (fun y acc => max (l.count y) acc) 0 := by
  intro t ht
  induction t with
  | nil => exact absurd rfl ht
  | cons a t ih =>
    rcases eq_or_ne t [] with rfl | hne
    · exact ⟨a, List.mem_cons_self a [], by simp⟩
    · obtain ⟨x, hxmem, hxeq⟩ := ih hne
      rcases le_total (t.foldr (fun y acc => max (l.count y) acc) 0) (l.count a) with hle | hle
      · exact ⟨a, List.mem_cons_self a t, by simp [max_eq_left hle]⟩
      · exact ⟨x, List.mem_cons_of_mem a hxmem,
          by rw [List.foldr_cons, max_eq_right hle, hxeq]⟩

theorem scipyModeList_spec (l : List ℚ) (h : l ≠ []) :
    ∃ m, (scipyModeList l).head? = some m ∧ m ∈ l ∧
      (∀ x ∈ l, l.count x ≤ l.count m) ∧
      ((∀ x ∈ l, l.count x = 1) → ∀ x ∈ l, m ≤ x) := by
  have hsorted : List.Sorted (· ≤ ·) (sortQ l.dedup) :=
    List.sorted_insertionSort (· ≤ ·) l.dedup
  have hmemt : ∀ y : ℚ, y ∈ sortQ l.dedup ↔ y ∈ l := by
    intro y
    rw [sortQ, (List.perm_insertionSort (· ≤ ·) l.dedup).mem_iff, List.mem_dedup]
  obtain ⟨w, hwl, hweq⟩ := maxCount_attained l l h
  have hwfilt : w ∈ scipyModeList l := by
    rw [scipyModeList, List.mem_filter]
    exact ⟨(hmemt w).mpr hwl, by simpa [maxCount] using hweq⟩
  obtain ⟨m, rest, hfilt⟩ := List.exists_cons_of_ne_nil (List.ne_nil_of_mem hwfilt)
  have hmfilt : m ∈ scipyModeList l := by rw [hfilt]; exact List.mem_cons_self m rest
  have hmdata := List.mem_filter.mp (by rwa [scipyModeList] at hmfilt)
  have hml : m ∈ l := (hmemt m).mp hmdata.1
  have hmcount : l.count m = maxCount l := by simpa using hmdata.2
  refine ⟨m, ?_, hml, ?_, ?_⟩
  · rw [hfilt]; rfl
  · intro x hx
    rw [hmcount]
    exact count_le_foldr l l x hx
  · intro hall x hx
    have hmax1 : maxCount l = 1 := by rw [← hmcount]; exact hall m hml
    have hxfilt : x ∈ scipyModeList l := by
      rw [scipyModeList, List.mem_filter]
      refine ⟨(hmemt x).mpr hx, ?_⟩
      simp [hmax1, hall x hx]
    have hsf : List.Sorted (· ≤ ·) (scipyModeList l) := by
      rw [scipyModeList]
      exact List.Pairwise.filter _ hsorted
    rw [hfilt] at hxfilt hsf
    rcases List.mem_cons.mp hxfilt with rfl | hxrest
    · exact le_refl x
    · exact List.rel_of_sorted_cons hsf x hxrest

theorem percentile50_eq_median (l : List ℚ) (h : l ≠ []) :
    npPercentile l 50 = npMedian l := by
  simp only [npPercentile, npMedian]
  set s := sortQ l with hs
  have hlen : s.length = l.length := (List.perm_insertionSort _ l).length_eq
  have hn : s.length ≠ 0 := by
    rw [hlen]
    exact fun hc => h (List.eq_nil_of_length_eq_zero hc)
  rcases Nat.even_or_odd s.length with ⟨k, hk⟩ | ⟨k, hk⟩
  · rcases k with _ | m
    · omega
    · have hklen : s.length = 2 * m + 2 := by omega
      rw [hklen]
      have hpos : (50 : ℚ) * ((((2 * m + 2 : ℕ) : ℚ)) - 1) / 100 = (2 * m + 1) / 2 := by
        push_cast; ring
      rw [hpos]
      have hfloor : ⌊((2 * (m:ℚ) + 1) / 2)⌋ = (m : ℤ) := by
        rw [Int.floor_eq_iff]
        constructor
        · push_cast; linarith
        · push_cast; linarith
      rw [hfloor]
      have htn : ((m : ℤ)).toNat = m := Int.toNat_natCast m
      rw [htn]
      have hfrac : (2 * (m:ℚ) + 1) / 2 - (m : ℚ) = 1 / 2 := by ring
      rw [hfrac]
      have hm1 : m + 1 < s.length := by omega
      have hm0 : m < s.length := by omega
      have e1 : s.getD m 0 = s.get ⟨m, hm0⟩ := by
        rw [List.getD_eq_getElem s 0 hm0]
        simp
      have e2 : ∀ d : ℚ, s.getD (m + 1) d = s.get ⟨m + 1, hm1⟩ := by
        intro d
        rw [List.getD_eq_getElem s d hm1]
        simp
      rw [e1, e2]
      have hmod : (2 * m + 2) % 2 = 0 := by omega
      rw [hmod]
      norm_num
      rw [List.getElem?_eq_getElem hm0, List.getElem?_eq_getElem hm1]
      simp
      ring
  · rw [hk]
    have hpos : (50 : ℚ) * ((((2 * k + 1 : ℕ) : ℚ)) - 1) / 100 = (k : ℚ) := by
      push_cast; ring
    rw [hpos]
    have hfloor : ⌊(k : ℚ)⌋ = (k : ℤ) := Int.floor_natCast k
    rw [hfloor, Int.toNat_natCast]
    have hmod : (2 * k + 1) % 2 = 1 := by omega
    rw [hmod]
    norm_num
    have hd2 : (2 * k + 1) / 2 = k := by omega
    rw [hd2]

theorem curtose_eq_fourthMoment (l : List ℚ) (h2 : 0 < centralMoment l 2) :
    ((scipyKurtosis l : ℚ) : ℝ) = fourthStandardizedMoment l := by
  have h2R : (0 : ℝ) < ((centralMoment l 2 : ℚ) : ℝ) := by exact_mod_cast h2
  have hs : Real.sqrt ((centralMoment l 2 : ℚ) : ℝ) ^ 2 = ((centralMoment l 2 : ℚ) : ℝ) :=
    Real.sq_sqrt h2R.le
  have hterm : ∀ x : ℚ,
      (((x : ℝ) - ((mean l : ℚ) : ℝ)) / Real.sqrt ((centralMoment l 2 : ℚ) : ℝ)) ^ 4 =
        (((x - mean l) ^ 4 : ℚ) : ℝ) * (((centralMoment l 2 : ℚ) : ℝ) ^ 2)⁻¹ := by
    intro x
    rw [div_pow]
    have : Real.sqrt ((centralMoment l 2 : ℚ) : ℝ) ^ 4 =
        ((centralMoment l 2 : ℚ) : ℝ) ^ 2 := by
      rw [show (4 : ℕ) = 2 * 2 from rfl, pow_mul, hs]
    rw [this, div_eq_mul_inv]
    push_cast
    ring_nf
  unfold fourthStandardizedMoment
  rw [List.map_congr_left (fun x _ => hterm x), List.sum_map_mul_right]
  rw [show scipyKurtosis l = centralMoment l 4 / centralMoment l 2 ^ 2 from rfl]
  rw [show centralMoment l 4 =
    (l.map (fun x => (x - mean l) ^ 4)).sum / (l.length : ℚ) from rfl]
  rw [Rat.cast_div, Rat.cast_div, Rat.cast_pow, cast_sum_map, Rat.cast_natCast]
  ring

theorem p_two_bounds_helper (c : ℝ) (h0 : 0 ≤ c) (h1 : c ≤ 1) :
    0 ≤ 2 * min (1 - c) (1 - (1 - c)) ∧ 2 * min (1 - c) (1 - (1 - c)) ≤ 1 := by
  constructor
  · have : 0 ≤ min (1 - c) (1 - (1 - c)) := le_min (by linarith) (by linarith)
    linarith
  · have h2 := min_le_left (1 - c) (1 - (1 - c))
    have h3 := min_le_right (1 - c) (1 - (1 - c))
    linarith

/-! Claim theorems. -/

/-- C1 (counterexample): the claim that with saving enabled any I/O failure
is caught, logged, does not raise and still displays the figure is false at
a concrete input: when the `images` directory is missing and `os.makedirs`
fails, the error is caught and logged and nothing is raised, but the
function returns early and the figure is never rendered or displayed. -/
theorem composicao_mkdir_failure_not_displayed :
    ¬ ((composicao_histograma_boxplot ⟨false, true, false⟩ true).raised = false ∧
       (composicao_histograma_boxplot ⟨false, true, false⟩ true).errorLogged = true ∧
       (composicao_histograma_boxplot ⟨false, true, false⟩ true).displayed = true) := by
  decide

/-- C1 (amended): `composicao_histograma_boxplot` with saving enabled never
raises and always logs a caught I/O failure; a failure of the file write
degrades to display-only (figure still displayed, no file saved); but a
failure of the directory creation makes the function return early, so the
figure is not displayed in that one case. -/
theorem composicao_persistencia_best_effort (env : PlotEnv) (salvar : Bool) :
    (composicao_histograma_boxplot env salvar).raised = false ∧
    (salvar = true → (env.imagesDirExists = true ∨ env.mkdirFails = false) →
      (composicao_histograma_boxplot env salvar).displayed = true ∧
      (env.savefigFails = true →
        (composicao_histograma_boxplot env salvar).fileSaved = false ∧
        (composicao_histograma_boxplot env salvar).errorLogged = true)) ∧
    (salvar = true → env.imagesDirExists = false → env.mkdirFails = true →
      (composicao_histograma_boxplot env salvar).displayed = false ∧
      (composicao_histograma_boxplot env salvar).errorLogged = true) := by
  obtain ⟨d, m, s⟩ := env
  cases d <;> cases m <;> cases s <;> cases salvar <;> decide

theorem composicao_persistencia_best_effort_witness :
    (composicao_histograma_boxplot ⟨true, false, true⟩ true).raised = false ∧
    (composicao_histograma_boxplot ⟨true, false, true⟩ true).displayed = true ∧
    (composicao_histograma_boxplot ⟨true, false, true⟩ true).fileSaved = false := by
  refine ⟨(composicao_persistencia_best_effort ⟨true, false, true⟩ true).1, ?_, ?_⟩
  · exact ((composicao_persistencia_best_effort ⟨true, false, true⟩ true).2.1
      rfl (Or.inl rfl)).1
  · exact (((composicao_persistencia_best_effort ⟨true, false, true⟩ true).2.1
      rfl (Or.inl rfl)).2 rfl).1

/-- C2: the two-tailed p-value returned by `teste_f_variancias` is symmetric
under swapping the two samples, for samples with positive variance.  The CDF
of the F distribution is abstract; the tie case uses its reflection property
at 1, `cdf 1 d1 d2 + cdf 1 d2 d1 = 1`, which the F distribution satisfies. -/
theorem teste_f_p_value_symmetric (cdf : ℚ → ℕ → ℕ → ℝ)
    (hcdf : ∀ d1 d2 : ℕ, cdf 1 d1 d2 + cdf 1 d2 d1 = 1)
    (A B : List ℚ) (hA : 0 < sampleVar A) (_hB : 0 < sampleVar B) :
    (teste_f_variancias cdf A B).p_two = (teste_f_variancias cdf B A).p_two := by
  rcases lt_trichotomy (sampleVar A) (sampleVar B) with h | h | h
  · simp [teste_f_variancias, h, not_lt.mpr h.le, asymm h]
  · have hne : sampleVar A ≠ 0 := ne_of_gt hA
    have h1 : ¬ sampleVar B < sampleVar A := by rw [h]; exact lt_irrefl _
    have h2 : ¬ sampleVar A < sampleVar B := by rw [h]; exact lt_irrefl _
    simp only [teste_f_variancias, if_neg h1, if_neg h2]
    rw [h, div_self (h ▸ hne)]
    have hrefl := hcdf (B.length - 1) (A.length - 1)
    have hflip : cdf 1 (A.length - 1) (B.length - 1) =
        1 - cdf 1 (B.length - 1) (A.length - 1) := by linarith
    rw [hflip]
    ring_nf
    rw [min_comm]
  · simp [teste_f_variancias, h, not_lt.mpr h.le, asymm h]

theorem teste_f_p_value_symmetric_witness :
    (0 < sampleVar [0, 2] ∧ 0 < sampleVar [0, 2, 4]) ∧
    (teste_f_variancias (fun _ _ _ => (1 : ℝ) / 2) [0, 2] [0, 2, 4]).p_two =
      (teste_f_variancias (fun _ _ _ => (1 : ℝ) / 2) [0, 2, 4] [0, 2]).p_two := by
  refine ⟨⟨?_, ?_⟩,
    teste_f_p_value_symmetric _ (fun d1 d2 => by norm_num) [0, 2] [0, 2, 4] ?_ ?_⟩
  all_goals norm_num [sampleVar, sumSqDev, mean]

/-- C3: for samples with positive variances, the F statistic is the ratio of
the larger to the smaller variance (hence at least 1), and the degrees of
freedom are ordered accordingly: df1 belongs to the sample with the larger
variance, df2 to the other. -/
theorem teste_f_statistic_max_min_ratio (cdf : ℚ → ℕ → ℕ → ℝ) (A B : List ℚ)
    (hA : 0 < sampleVar A) (hB : 0 < sampleVar B) :
    (teste_f_variancias cdf A B).F =
        max (sampleVar A) (sampleVar B) / min (sampleVar A) (sampleVar B) ∧
      1 ≤ (teste_f_variancias cdf A B).F ∧
      (sampleVar B < sampleVar A →
        (teste_f_variancias cdf A B).df1 = A.length - 1 ∧
        (teste_f_variancias cdf A B).df2 = B.length - 1) ∧
      (sampleVar A < sampleVar B →
        (teste_f_variancias cdf A B).df1 = B.length - 1 ∧
        (teste_f_variancias cdf A B).df2 = A.length - 1) := by
  by_cases h : sampleVar B < sampleVar A
  · simp only [teste_f_variancias, if_pos h]
    refine ⟨?_, ?_, fun _ => ⟨trivial, trivial⟩, fun h' => absurd h' (not_lt.mpr h.le)⟩
    · rw [max_eq_left h.le, min_eq_right h.le]
    · exact (one_le_div hB).mpr h.le
  · simp only [teste_f_variancias, if_neg h]
    push_neg at h
    refine ⟨?_, ?_, fun h' => absurd h' (not_lt.mpr h), fun _ => ⟨trivial, trivial⟩⟩
    · rw [max_eq_right h, min_eq_left h]
    · exact (one_le_div hA).mpr h

theorem teste_f_statistic_max_min_ratio_witness :
    (0 < sampleVar [0, 2] ∧ 0 < sampleVar [0, 2, 4]) ∧
    1 ≤ (teste_f_variancias (fun _ _ _ => (1 : ℝ) / 2) [0, 2] [0, 2, 4]).F := by
  refine ⟨⟨?_, ?_⟩,
    (teste_f_statistic_max_min_ratio (fun _ _ _ => (1 : ℝ) / 2) [0, 2] [0, 2, 4]
      ?_ ?_).2.1⟩
  all_goals norm_num [sampleVar, sumSqDev, mean]

/-- C4: the value returned by `teste_f_variancias` is exactly the two-tailed
construction `2 * min p_one (1 - p_one)` with `p_one = 1 - cdf F df1 df2`
taken at the computed F statistic and degrees of freedom (this holds for
every pair of samples, so in particular under the claim preconditions). -/
theorem teste_f_two_tailed_formula (cdf : ℚ → ℕ → ℕ → ℝ) (A B : List ℚ) :
    (teste_f_variancias cdf A B).p_two =
      2 * min (1 - cdf (teste_f_variancias cdf A B).F
                (teste_f_variancias cdf A B).df1 (teste_f_variancias cdf A B).df2)
              (1 - (1 - cdf (teste_f_variancias cdf A B).F
                (teste_f_variancias cdf A B).df1 (teste_f_variancias cdf A B).df2)) := by
  by_cases h : sampleVar B < sampleVar A <;> simp [teste_f_variancias, h]

/-- C5: the Curtose field of `calcular_estatisticas` is the fourth
standardized moment with no -3 shift: it equals the Pearson moment kurtosis
and exceeds the Fisher (excess) kurtosis by exactly 3. -/
theorem curtose_moment_convention (l : List ℚ) (h2 : 0 < centralMoment l 2) :
    (((calcular_estatisticas l).curtose : ℚ) : ℝ) = fourthStandardizedMoment l ∧
    (calcular_estatisticas l).curtose = scipyKurtosisFisher l + 3 := by
  constructor
  · simpa [calcular_estatisticas] using curtose_eq_fourthMoment l h2
  · simp [calcular_estatisticas, scipyKurtosisFisher]

theorem curtose_moment_convention_witness :
    0 < centralMoment [0, 1] 2 ∧
    (((calcular_estatisticas [0, 1]).curtose : ℚ) : ℝ) =
      fourthStandardizedMoment [0, 1] := by
  refine ⟨?_, (curtose_moment_convention [0, 1] ?_).1⟩
  all_goals norm_num [centralMoment, mean]

/-- C6: for a non-empty sample the Moda field is some value of the sample of
maximal multiplicity (never the NaN branch); when no value repeats it is the
smallest element of the sample; and an empty mode result would be reported
as NaN (`none`). -/
theorem moda_most_frequent_spec (l : List ℚ) (h : l ≠ []) :
    (∃ m, (calcular_estatisticas l).moda = some m ∧ m ∈ l ∧
      (∀ x ∈ l, l.count x ≤ l.count m) ∧
      ((∀ x ∈ l, l.count x = 1) → ∀ x ∈ l, m ≤ x)) ∧
    (scipyModeList l = [] → (calcular_estatisticas l).moda = none) := by
  constructor
  · simpa [calcular_estatisticas] using scipyModeList_spec l h
  · intro he
    simp [calcular_estatisticas, he]

theorem moda_most_frequent_spec_witness :
    ([3, 1, 2] : List ℚ) ≠ [] ∧
    (∃ m, (calcular_estatisticas [3, 1, 2]).moda = some m ∧
      m ∈ ([3, 1, 2] : List ℚ) ∧
      (∀ x ∈ ([3, 1, 2] : List ℚ), ([3, 1, 2] : List ℚ).count x ≤
        ([3, 1, 2] : List ℚ).count m) ∧
      ((∀ x ∈ ([3, 1, 2] : List ℚ), ([3, 1, 2] : List ℚ).count x = 1) →
        ∀ x ∈ ([3, 1, 2] : List ℚ), m ≤ x)) := by
  refine ⟨?_, (moda_most_frequent_spec [3, 1, 2] ?_).1⟩
  all_goals simp

/-- C7: the second quartile field (50th percentile with linear interpolation)
of `calcular_estatisticas` is exactly the Mediana field, for every non-empty
sample. -/
theorem quartil2_eq_mediana (l : List ℚ) (h : l ≠ []) :
    (calcular_estatisticas l).q2M = (calcular_estatisticas l).mediana := by
  simpa [calcular_estatisticas] using percentile50_eq_median l h

theorem quartil2_eq_mediana_witness :
    ([10, 12, 14, 10, 18, 20, 10] : List ℚ) ≠ [] ∧
    (calcular_estatisticas [10, 12, 14, 10, 18, 20, 10]).q2M =
      (calcular_estatisticas [10, 12, 14, 10, 18, 20, 10]).mediana := by
  refine ⟨?_, quartil2_eq_mediana [10, 12, 14, 10, 18, 20, 10] ?_⟩
  all_goals simp

/-- C8: the Variância field equals the square of the Desvio Padrão field
(which is its square root), for every sample with at least two distinct
values. -/
theorem variancia_eq_desvio_padrao_sq (l : List ℚ) (a b : ℚ)
    (_ha : a ∈ l) (_hb : b ∈ l) (_hab : a ≠ b) :
    (((calcular_estatisticas l).variancia : ℚ) : ℝ) =
      (calcular_estatisticas l).desvioPadrao ^ 2 := by
  simp only [calcular_estatisticas]
  rw [Real.sq_sqrt]
  exact_mod_cast sampleVar_nonneg l

theorem variancia_eq_desvio_padrao_sq_witness :
    ((1 : ℚ) ∈ ([1, 2, 3] : List ℚ) ∧ (2 : ℚ) ∈ ([1, 2, 3] : List ℚ) ∧
      (1 : ℚ) ≠ 2) ∧
    (((calcular_estatisticas [1, 2, 3]).variancia : ℚ) : ℝ) =
      (calcular_estatisticas [1, 2, 3]).desvioPadrao ^ 2 := by
  refine ⟨⟨?_, ?_, ?_⟩, variancia_eq_desvio_padrao_sq [1, 2, 3] 1 2 ?_ ?_ ?_⟩
  · simp
  · simp
  · norm_num
  · simp
  · simp
  · norm_num

/-- C9: neither statistics computation mutates its input sample: threading
the sample state through every library call of `calcular_estatisticas` and
of `teste_f_variancias` returns the samples unchanged, with the same
numeric results as the direct definitions. -/
theorem estatisticas_no_mutation :
    (∀ amostra : List ℚ,
      (calcular_estatisticas_run amostra).2 = amostra ∧
      (calcular_estatisticas_run amostra).1 = calcular_estatisticas amostra) ∧
    (∀ (cdf : ℚ → ℕ → ℕ → ℝ) (amostra1 amostra2 : List ℚ),
      (teste_f_variancias_run cdf amostra1 amostra2).2 = (amostra1, amostra2) ∧
      (teste_f_variancias_run cdf amostra1 amostra2).1 =
        (teste_f_variancias cdf amostra1 amostra2).p_two) := by
  constructor
  · intro amostra
    exact ⟨rfl, rfl⟩
  · intro cdf amostra1 amostra2
    refine ⟨rfl, ?_⟩
    by_cases h : sampleVar amostra2 < sampleVar amostra1 <;>
      simp [teste_f_variancias_run, teste_f_variancias, np_var_call, len_call, h]

/-- C10: the value returned by `teste_f_variancias` lies in [0, 1] whenever
the CDF it calls takes values in [0, 1] (as every cumulative distribution
function does). -/
theorem teste_f_p_value_in_unit_interval (cdf : ℚ → ℕ → ℕ → ℝ)
    (hcdf : ∀ x d1 d2, 0 ≤ cdf x d1 d2 ∧ cdf x d1 d2 ≤ 1)
    (A B : List ℚ) :
    0 ≤ (teste_f_variancias cdf A B).p_two ∧
      (teste_f_variancias cdf A B).p_two ≤ 1 := by
  by_cases h : sampleVar B < sampleVar A
  · simp only [teste_f_variancias, if_pos h]
    exact p_two_bounds_helper _ (hcdf _ _ _).1 (hcdf _ _ _).2
  · simp only [teste_f_variancias, if_neg h]
    exact p_two_bounds_helper _ (hcdf _ _ _).1 (hcdf _ _ _).2

theorem teste_f_p_value_in_unit_interval_witness :
    0 ≤ (teste_f_variancias (fun _ _ _ => (1 : ℝ) / 2) [0, 2] [0, 2, 4]).p_two ∧
      (teste_f_variancias (fun _ _ _ => (1 : ℝ) / 2) [0, 2] [0, 2, 4]).p_two ≤ 1 :=
  teste_f_p_value_in_unit_interval (fun _ _ _ => (1 : ℝ) / 2)
    (fun x d1 d2 => by norm_num) [0, 2] [0, 2, 4]

end ComposicaoEstatisticas
